import Mathlib

/-!
Verification of the mcp-terminal repository's command-policy engine,
execution engine and JSON-RPC session layer, as a shallow embedding of
the TypeScript sources in Lean 4.

Sources embedded here:
- `src/shell/exec.ts` (two revisions concatenated in the file):
  `isCommandDenied` (both revisions), `executeCommand` (second revision,
  the one with the `require_user_approval` gate), the foreground capture
  handlers and the `close` / `error` event handlers.
- `src/types.ts` second half (the config module): `shouldAutoApproveCommand`,
  `ApprovalConfigSchema`, `setConfigFromJson`.
- `src/rpc/client.ts` (`part_003`): `RpcClient.call`, `RpcClient.handle`,
  `RpcClient.performHandshake`, `RpcClient.close`.
-/

namespace Mcp

/-! ### Policy configuration (`autorun_mode` of `ApprovalConfigSchema`) -/

/-- The `autorun_mode` object of the configuration, from `ApprovalConfigSchema`
in the config module (`types.ts` lines 94-101). -/
structure AutorunMode where
  enabled : Bool
  allowlist : List String
  denylist : List String
  allow_all_other_commands : Bool
deriving DecidableEq

/-- The whole configuration document: `{ autorun_mode: ... }`. -/
structure ApprovalConfig where
  autorun_mode : AutorunMode
deriving DecidableEq

/-! ### Pattern matching used by the policy code

The denylist check builds `new RegExp("\\b" + pat + "\\b", "i")` and calls
`regex.test(command)`; for the literal (metacharacter-free) patterns the
configuration holds, this is: the pattern occurs in the command, compared
case-insensitively, with a `\b` word-boundary on each side.  The allowlist
check is JavaScript `command.includes(pattern)`: a case-sensitive substring
test. -/

/-- A regex word character (`\w`): alphanumeric or underscore. -/
def isWordChar (c : Char) : Bool := c.isAlphanum || c == '_'

/-- Whether position `i` of `s` holds a word character (`false` past the end,
matching the regex treatment of the string edges as non-word). -/
def wordCharAt (s : List Char) (i : Nat) : Bool :=
  match s.get? i with
  | some c => isWordChar c
  | none => false

/-- The regex `\b` assertion at position `i` of `s`: the wordness of the
character before `i` differs from the wordness of the character at `i`. -/
def boundaryAt (s : List Char) (i : Nat) : Bool :=
  (if i = 0 then false else wordCharAt s (i - 1)) != wordCharAt s i

/-- Case-insensitive character comparison (the regex `i` flag). -/
def charEqCI (a b : Char) : Bool := a.toLower == b.toLower

/-- Case-insensitive prefix test of the first list against the second. -/
def isPrefixCI : List Char → List Char → Bool
  | [], _ => true
  | _ :: _, [] => false
  | a :: as, b :: bs => charEqCI a b && isPrefixCI as bs

/-- The test `new RegExp("\\b" + pat + "\\b", "i").test(cmd)` for a literal pattern
`pat`: a case-insensitive occurrence of `pat` in `cmd` with word boundaries
on both sides. -/
def deniedPatternMatch (pat cmd : String) : Bool :=
  (List.range (cmd.data.length + 1)).any fun i =>
    boundaryAt cmd.data i && isPrefixCI pat.data (cmd.data.drop i) &&
      boundaryAt cmd.data (i + pat.data.length)

/-- JavaScript `s.includes(sub)`: case-sensitive substring occurrence. -/
def containsSubstr (s sub : String) : Bool :=
  (List.range (s.data.length + 1)).any fun i => sub.data.isPrefixOf (s.data.drop i)

/-! ### `shouldAutoApproveCommand` (`types.ts` lines 120-159)

The TypeScript reads the module-global `activeConfig`; here the config
snapshot is passed explicitly. -/

/-- The function `shouldAutoApproveCommand(command)` from the config module: disabled mode
never auto-approves; the denylist (word-bounded, case-insensitive) is checked
first and wins; then `allow_all_other_commands`; then the allowlist as a
substring test; default is no. -/
def shouldAutoApproveCommand (command : String) (config : AutorunMode) : Bool :=
  if !config.enabled then false
  else if config.denylist.any fun p => deniedPatternMatch p command then false
  else if config.allow_all_other_commands then true
  else if config.allowlist.any fun p => containsSubstr command p then true
  else false

/-! ### `isCommandDenied`, both revisions of `exec.ts` -/

/-- The function `isCommandDenied` from the first revision of `exec.ts` (lines 24-61):
the denylist is tested first with the word-bounded case-insensitive regex,
unconditionally; then `enabled && allow_all_other_commands` allows; then
disabled mode allows; otherwise the result is the negation of
`shouldAutoApproveCommand`. -/
def isCommandDenied (command : String) (config : AutorunMode) : Bool :=
  if config.denylist.any fun p => deniedPatternMatch p command then true
  else if config.enabled && config.allow_all_other_commands then false
  else if !config.enabled then false
  else !shouldAutoApproveCommand command config

/-- The function `isCommandDenied` from the second revision of `exec.ts` (lines 218-234):
with `enabled == false` only the denylist is consulted, as a case-sensitive
`command.includes(pattern)` substring test; with `enabled == true` the result
is the negation of `shouldAutoApproveCommand`. -/
def isCommandDenied2 (command : String) (config : AutorunMode) : Bool :=
  if !config.enabled then config.denylist.any fun p => containsSubstr command p
  else !shouldAutoApproveCommand command config

/-! ### Claim C1 -/

/-- Claim C1: with `enabled == true`, a command matching a denylist pattern
(the word-bounded case-insensitive match the code performs) is denied by
every policy path — `isCommandDenied` of both `exec.ts` revisions denies and
`shouldAutoApproveCommand` refuses — regardless of `allow_all_other_commands`
and of the allowlist, which are arbitrary here. -/
theorem C1_denylist_terminal (cmd : String) (cfg : AutorunMode) (p : String)
    (hen : cfg.enabled = true) (hp : p ∈ cfg.denylist)
    (hm : deniedPatternMatch p cmd = true) :
    isCommandDenied cmd cfg = true ∧ isCommandDenied2 cmd cfg = true ∧
      shouldAutoApproveCommand cmd cfg = false := by
  have hany : (cfg.denylist.any fun q => deniedPatternMatch q cmd) = true :=
    List.any_eq_true.2 ⟨p, hp, hm⟩
  have hauto : shouldAutoApproveCommand cmd cfg = false := by
    simp [shouldAutoApproveCommand, hen, hany]
  refine ⟨?_, ?_, hauto⟩
  · simp [isCommandDenied, hany]
  · simp [isCommandDenied2, hen, hauto]

/-- Witness for C1 at the spec's own test vector:
`decide("rm -rf /", {enabled: true, denylist: ["rm"], allowAllOthers: true})`
is Deny on every path. -/
theorem C1_witness :
    isCommandDenied "rm -rf /" ⟨true, [], ["rm"], true⟩ = true ∧
      isCommandDenied2 "rm -rf /" ⟨true, [], ["rm"], true⟩ = true ∧
      shouldAutoApproveCommand "rm -rf /" ⟨true, [], ["rm"], true⟩ = false :=
  C1_denylist_terminal "rm -rf /" ⟨true, [], ["rm"], true⟩ "rm" rfl
    (by simp) (by decide)

/-! ### Claim C3 -/

/-- Claim C3 (amended): with `enabled == false` both decision paths consult
only the denylist — the allowlist and `allow_all_other_commands` do not occur
in either equation — but they disagree on the match semantics: the first
revision's `isCommandDenied` uses the word-bounded case-insensitive regex
match, while the second revision's uses a case-sensitive substring test. -/
theorem C3_disabled_denylist (cmd : String) (cfg : AutorunMode)
    (h : cfg.enabled = false) :
    isCommandDenied cmd cfg = (cfg.denylist.any fun p => deniedPatternMatch p cmd) ∧
      isCommandDenied2 cmd cfg = (cfg.denylist.any fun p => containsSubstr cmd p) := by
  constructor
  · by_cases hany : (cfg.denylist.any fun p => deniedPatternMatch p cmd) = true
    · simp [isCommandDenied, hany]
    · simp only [Bool.not_eq_true] at hany
      simp [isCommandDenied, hany, h]
  · simp [isCommandDenied2, h]

/-- Witness for C3 at a concrete config with a nonempty allowlist and
`allow_all_other_commands` set, showing neither is consulted when disabled. -/
theorem C3_witness :
    isCommandDenied "ls -la" ⟨false, ["x"], ["rm"], true⟩ =
        ((["rm"] : List String).any fun p => deniedPatternMatch p "ls -la") ∧
      isCommandDenied2 "ls -la" ⟨false, ["x"], ["rm"], true⟩ =
        ((["rm"] : List String).any fun p => containsSubstr "ls -la" p) :=
  C3_disabled_denylist "ls -la" ⟨false, ["x"], ["rm"], true⟩ rfl

/-- Counterexample for C3 as stated: with `enabled == false` and denylist
`["rm"]`, the command `"formula"` does not match `"rm"` as a (case-insensitive)
whole word, so the claim predicts Admit; but the second revision's
`isCommandDenied` denies it, because `"formula".includes("rm")` holds. -/
theorem C3_cex :
    isCommandDenied2 "formula" ⟨false, [], ["rm"], false⟩ = true ∧
      deniedPatternMatch "rm" "formula" = false := by
  decide

/-! ### Execution engine (`executeCommand`, second revision of `exec.ts`)

The engine is event-driven: the spawned process delivers `data` events on
its stdout/stderr streams and then either a `close` event (with an exit
code) or an `error` event (with a signal / error code).  The embedding makes
that event sequence an explicit argument and computes the resolved
`CommandExecOutcome`. -/

/-- The request shape `RunTerminalCmdArgs` from `types.ts` (lines 34-40). -/
structure RunTerminalCmdArgs where
  command : String
  explanation : String
  is_background : Bool
  require_user_approval : Bool
deriving DecidableEq

/-- A dynamically-typed JavaScript value, for fields the code fills with
either a number, a string or `null`/`undefined` (such as `err.code`). -/
inductive JsVal where
  | null
  | num (n : Int)
  | str (s : String)
deriving DecidableEq

/-- The outcome type `CommandExecOutcome` from `types.ts`: `{status:'success', result}`,
`{status:'waiting'}` or `{status:'error', error:{code, message}}`. Output
buffers are kept as character lists. -/
inductive ExecOutcome where
  | success (stdout stderr : List Char) (exitCode : JsVal) (truncated : Bool)
  | waiting
  | errorOut (code message : String)
deriving DecidableEq

/-- The cap `MAX_BUFFER_SIZE = 2 * 1024 * 1024` from `exec.ts`. -/
def MAX_BUFFER_SIZE : Nat := 2 * 1024 * 1024

/-- The result of the approval/security gate at the top of `executeCommand`
(second revision, lines 249-283): hard denial, waiting for approval, or
proceeding to actually run the command. -/
inductive ExecGate where
  | securityViolation
  | waiting
  | proceed
deriving DecidableEq

/-- The gate at the top of `executeCommand` (second revision): a denied
command errors unless `require_user_approval` is set, in which case it
waits; an admitted command with `require_user_approval` set waits unless
`shouldAutoApproveCommand` auto-approves it. -/
def executeGate (command : String) (requireApproval : Bool) (config : AutorunMode) : ExecGate :=
  if isCommandDenied2 command config then
    if !requireApproval then ExecGate.securityViolation else ExecGate.waiting
  else if requireApproval then
    if shouldAutoApproveCommand command config then ExecGate.proceed else ExecGate.waiting
  else ExecGate.proceed

/-- The capture state of the foreground path: the two output buffers and the
single `truncated` flag, which is shared between the two streams. -/
structure CaptureState where
  stdout : List Char
  stderr : List Char
  truncated : Bool
deriving DecidableEq

/-- Initial capture state: `stdout = ''`, `stderr = ''`, `truncated = false`. -/
def initCapture : CaptureState := ⟨[], [], false⟩

/-- One `data` event, tagged with the stream it arrived on. -/
inductive Chunk where
  | out (data : List Char)
  | err (data : List Char)
deriving DecidableEq

/-- The body of the per-stream `data` handler: if the incoming chunk would
push the buffer past `MAX_BUFFER_SIZE`, append only
`data.substring(0, MAX_BUFFER_SIZE - buf.length)` and set `truncated`;
otherwise append the whole chunk, but only while `truncated` is unset. -/
def appendCapped (buf : List Char) (truncated : Bool) (data : List Char) :
    List Char × Bool :=
  if MAX_BUFFER_SIZE < buf.length + data.length then
    (buf ++ data.take (MAX_BUFFER_SIZE - buf.length), true)
  else if !truncated then (buf ++ data, truncated)
  else (buf, truncated)

/-- Dispatch one `data` event to the matching stream's handler; the
`truncated` flag is common to both. -/
def stepChunk (st : CaptureState) (c : Chunk) : CaptureState :=
  match c with
  | Chunk.out d =>
    let r := appendCapped st.stdout st.truncated d
    ⟨r.1, st.stderr, r.2⟩
  | Chunk.err d =>
    let r := appendCapped st.stderr st.truncated d
    ⟨st.stdout, r.1, r.2⟩

/-- Run the two `data` handlers over a whole arrival sequence. -/
def processChunks (chunks : List Chunk) : CaptureState :=
  chunks.foldl stepChunk initCapture

/-- How the spawned process ends: a `close` event carrying
`code : number | null`, or an `error` event carrying an `ExecException`
(signal, code and message). -/
inductive ProcEnd where
  | closed (code : Option Int)
  | errored (signal : Option String) (code : JsVal) (message : String)
deriving DecidableEq

/-- The `error` event handler of `executeCommand` (lines 352-392):
`SIGTERM` or `ERR_CHILD_PROCESS_STDIO_MAXBUFFER` is treated as the buffer
cap tripping and resolved as a `success` with a diagnostic appended to
stderr and `truncated = true`; `ETIMEDOUT` or `SIGKILL` resolves as the
`timeout` error; anything else as `exec_error`. -/
def handleError (st : CaptureState) (errSignal : Option String) (errCode : JsVal)
    (errMessage : String) : ExecOutcome :=
  if errSignal = some "SIGTERM" ∨ errCode = JsVal.str "ERR_CHILD_PROCESS_STDIO_MAXBUFFER" then
    let suffix : List Char := ("\nERROR: Command output exceeded 2MB buffer limit.").data
    let stderr1 :=
      if MAX_BUFFER_SIZE < st.stderr.length + suffix.length then
        st.stderr.take (MAX_BUFFER_SIZE - suffix.length)
      else st.stderr
    ExecOutcome.success st.stdout (stderr1 ++ suffix)
      (if errCode = JsVal.null then JsVal.num 1 else errCode) true
  else if errCode = JsVal.str "ETIMEDOUT" ∨ errSignal = some "SIGKILL" then
    ExecOutcome.errorOut "timeout" "Command timed out after 30 seconds."
  else
    ExecOutcome.errorOut "exec_error" ("Command failed: " ++ errMessage)

/-- The foreground resolution: a `close` event resolves as `success` with
`exitCode = code === null ? -1 : code` and the captured, possibly truncated
buffers; an `error` event goes through `handleError`. -/
def foregroundOutcome (chunks : List Chunk) (term : ProcEnd) : ExecOutcome :=
  let st := processChunks chunks
  match term with
  | ProcEnd.closed code =>
    ExecOutcome.success st.stdout st.stderr (JsVal.num (code.getD (-1))) st.truncated
  | ProcEnd.errored sig c msg => handleError st sig c msg

/-- The function `executeCommand` (second revision of `exec.ts`, lines 243-394) as a
function of the request, the config snapshot, and the process events.
`bgLaunchError` is the error the background launch callback may receive:
the code only logs it, so the returned outcome does not depend on it.
The background path returns `success('', '', 0, false)` without consulting
the process events at all; the foreground path resolves from them. -/
def executeCommandModel (p : RunTerminalCmdArgs) (config : AutorunMode)
    (_bgLaunchError : Option String) (chunks : List Chunk) (term : ProcEnd) :
    ExecOutcome :=
  match executeGate p.command p.require_user_approval config with
  | ExecGate.securityViolation =>
    ExecOutcome.errorOut "security_violation" "Command is denied by security rules"
  | ExecGate.waiting => ExecOutcome.waiting
  | ExecGate.proceed =>
    if p.is_background then ExecOutcome.success [] [] (JsVal.num 0) false
    else foregroundOutcome chunks term

/-! ### Claim C2 -/

/-- Claim C2 (amended): `executeCommand` composes the policy decision with
the request's `require_user_approval` flag as follows.  Deny with the flag
unset is the `security_violation` error; Deny with the flag set is Waiting
(no process event is consulted); Admit with the flag set is Waiting exactly
when `shouldAutoApproveCommand` refuses, and is auto-admitted and executed
(background or foreground) when `shouldAutoApproveCommand` approves —
auto-admission is decided by `shouldAutoApproveCommand`, not by an
allowlist match alone. -/
theorem C2_composition (p : RunTerminalCmdArgs) (cfg : AutorunMode)
    (bgErr : Option String) (chunks : List Chunk) (term : ProcEnd) :
    (isCommandDenied2 p.command cfg = true → p.require_user_approval = false →
      executeCommandModel p cfg bgErr chunks term =
        ExecOutcome.errorOut "security_violation" "Command is denied by security rules") ∧
    (isCommandDenied2 p.command cfg = true → p.require_user_approval = true →
      executeCommandModel p cfg bgErr chunks term = ExecOutcome.waiting) ∧
    (isCommandDenied2 p.command cfg = false → p.require_user_approval = true →
      shouldAutoApproveCommand p.command cfg = false →
      executeCommandModel p cfg bgErr chunks term = ExecOutcome.waiting) ∧
    (isCommandDenied2 p.command cfg = false → p.require_user_approval = true →
      shouldAutoApproveCommand p.command cfg = true →
      executeCommandModel p cfg bgErr chunks term =
        (if p.is_background then ExecOutcome.success [] [] (JsVal.num 0) false
         else foregroundOutcome chunks term)) := by
  refine ⟨?_, ?_, ?_, ?_⟩ <;> intro hd hr
  · simp [executeCommandModel, executeGate, hd, hr]
  · simp [executeCommandModel, executeGate, hd, hr]
  · intro ha
    simp [executeCommandModel, executeGate, hd, hr, ha]
  · intro ha
    simp [executeCommandModel, executeGate, hd, hr, ha]

/-- Witness for C2, applying the composition theorem on all four branches
at concrete inputs: a denylisted `rm x` without and with the approval flag,
an admitted `ls` under a disabled config with the flag (waits), and an
admitted `ls` under `allow_all_other_commands` with the flag (executes). -/
theorem C2_witness :
    executeCommandModel ⟨"rm x", "", false, false⟩ ⟨false, [], ["rm"], false⟩
        none [] (ProcEnd.closed (some 0)) =
      ExecOutcome.errorOut "security_violation" "Command is denied by security rules" ∧
    executeCommandModel ⟨"rm x", "", false, true⟩ ⟨false, [], ["rm"], false⟩
        none [] (ProcEnd.closed (some 0)) = ExecOutcome.waiting ∧
    executeCommandModel ⟨"ls", "", false, true⟩ ⟨false, [], [], false⟩
        none [] (ProcEnd.closed (some 0)) = ExecOutcome.waiting ∧
    executeCommandModel ⟨"ls", "", false, true⟩ ⟨true, [], [], true⟩
        none [] (ProcEnd.closed (some 0)) =
      (if (false : Bool) then ExecOutcome.success [] [] (JsVal.num 0) false
       else foregroundOutcome [] (ProcEnd.closed (some 0))) := by
  refine ⟨?_, ?_, ?_, ?_⟩
  · exact (C2_composition ⟨"rm x", "", false, false⟩ ⟨false, [], ["rm"], false⟩
      none [] (ProcEnd.closed (some 0))).1 (by decide) rfl
  · exact (C2_composition ⟨"rm x", "", false, true⟩ ⟨false, [], ["rm"], false⟩
      none [] (ProcEnd.closed (some 0))).2.1 (by decide) rfl
  · exact (C2_composition ⟨"ls", "", false, true⟩ ⟨false, [], [], false⟩
      none [] (ProcEnd.closed (some 0))).2.2.1 (by decide) rfl (by decide)
  · exact (C2_composition ⟨"ls", "", false, true⟩ ⟨true, [], [], true⟩
      none [] (ProcEnd.closed (some 0))).2.2.2 (by decide) rfl (by decide)

/-- Counterexample for C2 as stated: config
`{enabled: true, allowlist: [], denylist: [], allow_all_other_commands: true}`
admits `ls`, the request sets `require_user_approval`, and `ls` matches no
allowlist entry — the claim predicts Waiting, but the engine auto-admits and
executes the command (the foreground run resolves as a success). -/
theorem C2_cex :
    executeCommandModel ⟨"ls", "", false, true⟩ ⟨true, [], [], true⟩
        none [] (ProcEnd.closed (some 0)) =
      ExecOutcome.success [] [] (JsVal.num 0) false ∧
    isCommandDenied2 "ls" ⟨true, [], [], true⟩ = false ∧
    ((⟨true, [], [], true⟩ : AutorunMode).allowlist.any
      fun a => containsSubstr "ls" a) = false := by
  decide

/-! ### Claim C6 -/

/-- Claim C6: for an admitted background request the engine returns
`Success{stdout: "", stderr: "", exitCode: 0, truncated: false}` without
consulting the process events, and the outcome does not depend on the
background launch error (which is only logged): the result is identical for
any launch error and any process events. -/
theorem C6_background (p : RunTerminalCmdArgs) (cfg : AutorunMode)
    (e e2 : Option String) (chunks chunks2 : List Chunk) (t t2 : ProcEnd)
    (hgate : executeGate p.command p.require_user_approval cfg = ExecGate.proceed)
    (hbg : p.is_background = true) :
    executeCommandModel p cfg e chunks t = ExecOutcome.success [] [] (JsVal.num 0) false ∧
      executeCommandModel p cfg e chunks t = executeCommandModel p cfg e2 chunks2 t2 := by
  constructor
  · simp [executeCommandModel, hgate, hbg]
  · simp [executeCommandModel, hgate, hbg]

/-- Witness for C6: a background `sleep 5` under the default (disabled,
empty) config returns `Success{stdout:"", stderr:"", exitCode:0}`, and a
failed launch together with entirely different process events leaves the
outcome unchanged. -/
theorem C6_witness :
    executeCommandModel ⟨"sleep 5", "", true, false⟩ ⟨false, [], [], false⟩
        none [] (ProcEnd.closed (some 0)) =
      ExecOutcome.success [] [] (JsVal.num 0) false ∧
    executeCommandModel ⟨"sleep 5", "", true, false⟩ ⟨false, [], [], false⟩
        none [] (ProcEnd.closed (some 0)) =
      executeCommandModel ⟨"sleep 5", "", true, false⟩ ⟨false, [], [], false⟩
        (some "spawn failed") [Chunk.out ['x']] (ProcEnd.errored (some "SIGKILL") JsVal.null "boom") :=
  C6_background ⟨"sleep 5", "", true, false⟩ ⟨false, [], [], false⟩
    none (some "spawn failed") [] [Chunk.out ['x']] (ProcEnd.closed (some 0))
    (ProcEnd.errored (some "SIGKILL") JsVal.null "boom") (by decide) rfl

/-! ### Claim C5 -/

/-- Claim C5: an admitted foreground command whose process delivers the
timeout-shaped `error` event — `err.code === 'ETIMEDOUT'` or
`err.signal === 'SIGKILL'`, and not the `SIGTERM`/max-buffer markers the
handler tests first — resolves as exactly `Error{code: 'timeout'}` with the
30-second message, not as a success and not as any other error kind.
(The 30s bound itself is the fixed `EXEC_TIMEOUT = 30 * 1000` passed to
`exec`; the event is how its expiry reaches the handler.) -/
theorem C5_timeout (p : RunTerminalCmdArgs) (cfg : AutorunMode)
    (bgErr : Option String) (chunks : List Chunk)
    (sig : Option String) (code : JsVal) (msg : String)
    (hgate : executeGate p.command p.require_user_approval cfg = ExecGate.proceed)
    (hfg : p.is_background = false)
    (ht : code = JsVal.str "ETIMEDOUT" ∨ sig = some "SIGKILL")
    (hterm : sig ≠ some "SIGTERM")
    (hmb : code ≠ JsVal.str "ERR_CHILD_PROCESS_STDIO_MAXBUFFER") :
    executeCommandModel p cfg bgErr chunks (ProcEnd.errored sig code msg) =
      ExecOutcome.errorOut "timeout" "Command timed out after 30 seconds." := by
  have h1 : ¬(sig = some "SIGTERM" ∨ code = JsVal.str "ERR_CHILD_PROCESS_STDIO_MAXBUFFER") := by
    intro h
    rcases h with h | h
    · exact hterm h
    · exact hmb h
  simp only [executeCommandModel, hgate, hfg, foregroundOutcome]
  simp [handleError, h1, ht]

/-- Witness for C5: an admitted foreground `sleep 60` whose process reports
`code = 'ETIMEDOUT'` resolves as the timeout error. -/
theorem C5_witness :
    executeCommandModel ⟨"sleep 60", "", false, false⟩ ⟨false, [], [], false⟩
        none [] (ProcEnd.errored none (JsVal.str "ETIMEDOUT") "Command failed") =
      ExecOutcome.errorOut "timeout" "Command timed out after 30 seconds." :=
  C5_timeout ⟨"sleep 60", "", false, false⟩ ⟨false, [], [], false⟩ none []
    none (JsVal.str "ETIMEDOUT") "Command failed" (by decide) rfl
    (Or.inl rfl) (by decide) (by decide)

/-! ### Claim C4: output truncation -/

/-- The concatenation of all stdout `data` events of an arrival sequence. -/
def outData : List Chunk → List Char
  | [] => []
  | Chunk.out d :: rest => d ++ outData rest
  | Chunk.err _ :: rest => outData rest

/-- The concatenation of all stderr `data` events of an arrival sequence. -/
def errData : List Chunk → List Char
  | [] => []
  | Chunk.out _ :: rest => errData rest
  | Chunk.err d :: rest => d ++ errData rest

/-- Behaviour of one `data` handler call on a buffer that currently holds the
first `MAX_BUFFER_SIZE` characters of the stream so far, with the `truncated`
flag reflecting whether the stream has overflowed: the handler keeps exactly
the first `MAX_BUFFER_SIZE` characters of the extended stream and the flag
keeps tracking overflow. -/
theorem appendCapped_spec (acc d : List Char) :
    appendCapped (acc.take MAX_BUFFER_SIZE) (decide (MAX_BUFFER_SIZE < acc.length)) d =
      ((acc ++ d).take MAX_BUFFER_SIZE,
        decide (MAX_BUFFER_SIZE < (acc ++ d).length)) := by
  rw [appendCapped]
  by_cases h : MAX_BUFFER_SIZE < acc.length
  · have hmin : (acc.take MAX_BUFFER_SIZE).length = MAX_BUFFER_SIZE := by
      rw [List.length_take]
      exact min_eq_left h.le
    have h3 : MAX_BUFFER_SIZE < (acc ++ d).length := by
      rw [List.length_append]; omega
    have h2 : MAX_BUFFER_SIZE - acc.length = 0 := Nat.sub_eq_zero_of_le h.le
    by_cases hd : d.length = 0
    · have hd2 : d = [] := List.length_eq_zero.1 hd
      subst hd2
      rw [if_neg (by rw [hmin]; omega)]
      simp [h, List.append_nil]
    · rw [if_pos (by rw [hmin]; omega)]
      rw [hmin, List.take_append_eq_append_take, h2, List.take_zero, List.append_nil]
      have h4 : MAX_BUFFER_SIZE - MAX_BUFFER_SIZE = 0 := by omega
      rw [h4, List.take_zero, List.append_nil]
      rw [List.length_append] at h3
      simp [h3]
  · push_neg at h
    have hacc : acc.take MAX_BUFFER_SIZE = acc := List.take_of_length_le h
    rw [hacc]
    by_cases hov : MAX_BUFFER_SIZE < acc.length + d.length
    · rw [if_pos hov]
      have h3 : MAX_BUFFER_SIZE < (acc ++ d).length := by
        rw [List.length_append]; exact hov
      rw [List.take_append_eq_append_take, List.take_of_length_le h]
      rw [List.length_append] at h3
      simp [h3]
    · rw [if_neg hov]
      have hno : ¬MAX_BUFFER_SIZE < acc.length := by omega
      have htot : (acc ++ d).length ≤ MAX_BUFFER_SIZE := by
        rw [List.length_append]; omega
      rw [List.take_of_length_le htot]
      simp [hno, hov]

/-- When the incoming chunk fits under the cap, the handler never sets the
`truncated` flag and never grows the buffer beyond the stream total. -/
theorem appendCapped_keep (buf : List Char) (t : Bool) (d : List Char)
    (h : buf.length + d.length ≤ MAX_BUFFER_SIZE) :
    (appendCapped buf t d).2 = t ∧
      (appendCapped buf t d).1.length ≤ buf.length + d.length := by
  rw [appendCapped, if_neg (by omega)]
  cases t
  · simp [List.length_append]
  · simp

/-- Invariant of the capture fold: as long as the total stderr traffic of the
remaining events stays under the cap, the stdout buffer always holds exactly
the first `MAX_BUFFER_SIZE` characters of the stdout stream so far and the
shared `truncated` flag records whether that stream has overflowed. -/
theorem capture_fold (chunks : List Chunk) :
    ∀ (st : CaptureState) (acc : List Char),
      st.stdout = acc.take MAX_BUFFER_SIZE →
      st.truncated = decide (MAX_BUFFER_SIZE < acc.length) →
      st.stderr.length + (errData chunks).length ≤ MAX_BUFFER_SIZE →
      (chunks.foldl stepChunk st).stdout = (acc ++ outData chunks).take MAX_BUFFER_SIZE ∧
        (chunks.foldl stepChunk st).truncated =
          decide (MAX_BUFFER_SIZE < (acc ++ outData chunks).length) := by
  induction chunks with
  | nil =>
    intro st acc h1 h2 _
    simpa [outData] using ⟨h1, h2⟩
  | cons c rest ih =>
    intro st acc h1 h2 h3
    cases c with
    | out d =>
      have hstep : stepChunk st (Chunk.out d) =
          ⟨(acc ++ d).take MAX_BUFFER_SIZE, st.stderr,
            decide (MAX_BUFFER_SIZE < (acc ++ d).length)⟩ := by
        simp only [stepChunk]
        rw [h1, h2, appendCapped_spec]
      have h3r : st.stderr.length + (errData rest).length ≤ MAX_BUFFER_SIZE := by
        simpa [errData] using h3
      have hrec := ih ⟨(acc ++ d).take MAX_BUFFER_SIZE, st.stderr,
        decide (MAX_BUFFER_SIZE < (acc ++ d).length)⟩ (acc ++ d) rfl rfl h3r
      rw [List.foldl_cons, hstep]
      simpa [outData, List.append_assoc] using hrec
    | err d =>
      have hfit : st.stderr.length + d.length ≤ MAX_BUFFER_SIZE := by
        simp only [errData, List.length_append] at h3
        omega
      have hk := appendCapped_keep st.stderr st.truncated d hfit
      have hstep : stepChunk st (Chunk.err d) =
          ⟨st.stdout, (appendCapped st.stderr st.truncated d).1, st.truncated⟩ := by
        simp only [stepChunk]
        rw [hk.1]
      have h3r : (appendCapped st.stderr st.truncated d).1.length +
          (errData rest).length ≤ MAX_BUFFER_SIZE := by
        have := hk.2
        simp only [errData, List.length_append] at h3
        omega
      have hrec := ih ⟨st.stdout, (appendCapped st.stderr st.truncated d).1,
        st.truncated⟩ acc h1 h2 h3r
      rw [List.foldl_cons, hstep]
      simpa [outData] using hrec

/-- Claim C4 (amended): for an admitted foreground command whose stdout
stream exceeds `MAX_BUFFER_SIZE` (2MiB) while the total stderr stream stays
within the cap, the resolved outcome is `Success` (not an error) with
`truncated = true` and with exactly the first 2MiB of the stdout stream
retained — bytes beyond the cap are dropped, the captured prefix is
preserved, and the retained length is exactly `MAX_BUFFER_SIZE`.  The
stderr-side condition is forced by the code: the `truncated` flag is shared
between the two streams, and once stderr trips it, sub-cap stdout chunks
are dropped (see the counterexample). -/
theorem C4_truncation (p : RunTerminalCmdArgs) (cfg : AutorunMode)
    (bgErr : Option String) (chunks : List Chunk) (code : Option Int)
    (hgate : executeGate p.command p.require_user_approval cfg = ExecGate.proceed)
    (hfg : p.is_background = false)
    (hout : MAX_BUFFER_SIZE < (outData chunks).length)
    (herr : (errData chunks).length ≤ MAX_BUFFER_SIZE) :
    executeCommandModel p cfg bgErr chunks (ProcEnd.closed code) =
      ExecOutcome.success ((outData chunks).take MAX_BUFFER_SIZE)
        (processChunks chunks).stderr (JsVal.num (code.getD (-1))) true ∧
      ((outData chunks).take MAX_BUFFER_SIZE).length = MAX_BUFFER_SIZE := by
  have hfold := capture_fold chunks initCapture []
    (by simp [initCapture]) (by simp [initCapture])
    (by simpa [initCapture] using herr)
  rw [List.nil_append] at hfold
  have hstdout : (processChunks chunks).stdout = (outData chunks).take MAX_BUFFER_SIZE :=
    hfold.1
  have htrunc : (processChunks chunks).truncated = true := by
    rw [processChunks, hfold.2]
    simpa using hout
  constructor
  · simp only [executeCommandModel, hgate, hfg, foregroundOutcome]
    simp [hstdout, htrunc]
  · rw [List.length_take]
    exact min_eq_left hout.le

/-- Witness for C4: a single stdout chunk one character past the cap, no
stderr traffic, exit code 0 — the outcome is `Success` with exactly
`MAX_BUFFER_SIZE` characters retained and `truncated = true`. -/
theorem C4_witness :
    executeCommandModel ⟨"yes", "", false, false⟩ ⟨false, [], [], false⟩ none
        [Chunk.out (List.replicate (MAX_BUFFER_SIZE + 1) 'a')] (ProcEnd.closed (some 0)) =
      ExecOutcome.success
        ((outData [Chunk.out (List.replicate (MAX_BUFFER_SIZE + 1) 'a')]).take MAX_BUFFER_SIZE)
        (processChunks [Chunk.out (List.replicate (MAX_BUFFER_SIZE + 1) 'a')]).stderr
        (JsVal.num ((some (0 : Int)).getD (-1))) true ∧
      ((outData [Chunk.out (List.replicate (MAX_BUFFER_SIZE + 1) 'a')]).take
        MAX_BUFFER_SIZE).length = MAX_BUFFER_SIZE :=
  C4_truncation ⟨"yes", "", false, false⟩ ⟨false, [], [], false⟩ none
    [Chunk.out (List.replicate (MAX_BUFFER_SIZE + 1) 'a')] (some 0)
    (by decide) rfl
    (by simp [outData, List.length_replicate])
    (by simp [errData])

/-- The arrival sequence refuting C4 as stated: stderr overflows first, then
stdout delivers two cap-sized chunks (4MiB of stdout in total). -/
def cexChunks : List Chunk :=
  [Chunk.err (List.replicate (MAX_BUFFER_SIZE + 1) 'x'),
   Chunk.out (List.replicate MAX_BUFFER_SIZE 'b'),
   Chunk.out (List.replicate MAX_BUFFER_SIZE 'b')]

/-- Counterexample for C4 as stated: this foreground run produces more than
2MiB of stdout, yet the resolved stdout is empty — not "exactly 2MiB
retained" — because stderr tripped the shared `truncated` flag first and the
handler then drops sub-cap stdout chunks. -/
theorem cex_cond1 : MAX_BUFFER_SIZE <
    List.length ([] : List Char) + (List.replicate (MAX_BUFFER_SIZE + 1) 'x').length := by
  rw [List.length_nil, List.length_replicate]
  omega

theorem cex_cond2 : ¬MAX_BUFFER_SIZE <
    List.length ([] : List Char) + (List.replicate MAX_BUFFER_SIZE 'b').length := by
  rw [List.length_nil, List.length_replicate]
  omega

theorem cex_err_step : appendCapped [] false (List.replicate (MAX_BUFFER_SIZE + 1) 'x') =
    (List.replicate MAX_BUFFER_SIZE 'x', true) := by
  rw [appendCapped, if_pos cex_cond1]
  rw [List.length_nil, Nat.sub_zero, List.take_replicate, List.nil_append]
  rw [min_eq_left (by omega)]

theorem cex_out_step : appendCapped [] true (List.replicate MAX_BUFFER_SIZE 'b') =
    ([], true) := by
  rw [appendCapped, if_neg cex_cond2]
  rfl

theorem cex_outlen : MAX_BUFFER_SIZE < (outData cexChunks).length := by
  have h : outData cexChunks =
      List.replicate MAX_BUFFER_SIZE 'b' ++ (List.replicate MAX_BUFFER_SIZE 'b' ++ []) := by
    rw [cexChunks]
    rfl
  rw [h, List.length_append, List.length_append, List.length_nil, List.length_replicate]
  have hpos : 0 < MAX_BUFFER_SIZE := by decide
  omega

theorem C4_cex :
    MAX_BUFFER_SIZE < (outData cexChunks).length ∧
      (processChunks cexChunks).stdout = [] ∧
      (processChunks cexChunks).truncated = true := by
  have s1 : stepChunk initCapture (Chunk.err (List.replicate (MAX_BUFFER_SIZE + 1) 'x')) =
      ⟨[], List.replicate MAX_BUFFER_SIZE 'x', true⟩ := by
    simp only [stepChunk, initCapture]
    rw [cex_err_step]
  have s2 : stepChunk ⟨[], List.replicate MAX_BUFFER_SIZE 'x', true⟩
      (Chunk.out (List.replicate MAX_BUFFER_SIZE 'b')) =
      ⟨[], List.replicate MAX_BUFFER_SIZE 'x', true⟩ := by
    simp only [stepChunk]
    rw [cex_out_step]
  have hrun : processChunks cexChunks = ⟨[], List.replicate MAX_BUFFER_SIZE 'x', true⟩ := by
    rw [processChunks, cexChunks, List.foldl_cons, s1, List.foldl_cons, s2,
      List.foldl_cons, s2, List.foldl_nil]
  exact ⟨cex_outlen, by rw [hrun], by rw [hrun]⟩

/-! ### JSON-RPC session layer (`RpcClient`, `part_003`)

The client owns a pending map from correlation id to a callback, a
handshake promise (with its resolve/reject handles) and a closed flag.  The
embedding keeps the observable state — the pending ids (the callbacks all
have the one shape `call` installs), whether a handshake is in flight, and
the closed flag — and makes the side effects (requests sent over the
transport, promise resolutions/rejections) an explicit event list.  A
response field is `some` when the JavaScript truthiness test on it
succeeds. -/

/-- Observable state of an `RpcClient`: the keys of the `pending` map in
insertion order, whether `initializePromise`/`resolveInitialize`/
`rejectInitialize` are set, and the `closed` flag. -/
structure RpcClient where
  pending : List String
  handshakeInFlight : Bool
  closed : Bool
deriving DecidableEq

/-- The reserved handshake correlation id `RpcClient.INITIALIZE_ID`. -/
def handshakeId : String := "client-initialize-handshake"

/-- A JSON-RPC error object `{code, message}`. -/
structure RpcError where
  code : Int
  message : String
deriving DecidableEq

/-- An inbound JSON-RPC response `{id, result?, error?}`. -/
structure RpcResponse where
  id : String
  result : Option JsVal
  error : Option RpcError
deriving DecidableEq

/-- The value a successfully resolved call promise can carry: either the
whole `JsonRpcResponse` object, or only its `result` payload.  The code's
callback does `res(response)`, so it resolves with the whole object; the
`payload` alternative exists to state the difference. -/
inductive ResolvedVal where
  | response (r : RpcResponse)
  | payload (v : Option JsVal)
deriving DecidableEq

/-- The observable effects of the client's operations: a request written to
the transport, a pending call resolved or rejected, the handshake promise
resolved or rejected, and the transport being closed. -/
inductive RpcEffect where
  | sent (id : String) (method : String)
  | callResolved (id : String) (value : ResolvedVal)
  | callRejected (id : String) (code : Int) (message : String)
  | handshakeResolved (result : JsVal)
  | handshakeRejected (message : String)
  | transportClosed
deriving DecidableEq

/-- The method `RpcClient.handle` (lines 51-74): ignore everything once closed; a
response with the reserved handshake id resolves/rejects the in-flight
handshake (if any) and always clears the handshake state; otherwise a
response whose id is pending removes that entry and runs its callback,
which rejects on an error field (wrapping the remote code and message) and
resolves with the whole response otherwise; any other response is
discarded. -/
def handle (c : RpcClient) (r : RpcResponse) : RpcClient × List RpcEffect :=
  if c.closed then (c, [])
  else if r.id = handshakeId then
    ({ c with handshakeInFlight := false },
      match r.result, r.error with
      | some v, _ => if c.handshakeInFlight then [RpcEffect.handshakeResolved v] else []
      | none, some e =>
        if c.handshakeInFlight then
          [RpcEffect.handshakeRejected
            ("Initialize failed: " ++ e.message ++ " (Code: " ++ toString e.code ++ ")")]
        else []
      | none, none => [])
  else if r.id ∈ c.pending then
    ({ c with pending := c.pending.erase r.id },
      match r.error with
      | some e => [RpcEffect.callRejected r.id e.code e.message]
      | none => [RpcEffect.callResolved r.id (ResolvedVal.response r)])
  else (c, [])

/-- The method `RpcClient.call` (lines 112-127): register a pending entry under the
fresh id and send the request.  (`Map.set` keeps the original position when
the key already exists, which the id-freshness of `uuid()` is meant to
rule out.) -/
def call (c : RpcClient) (id : String) (method : String) : RpcClient × List RpcEffect :=
  ({ c with pending := if id ∈ c.pending then c.pending else c.pending ++ [id] },
    [RpcEffect.sent id method])

/-- The method `RpcClient.performHandshake` (lines 77-109), the synchronous part: when
no handshake is in flight, create the shared promise and send the one
`initialize` request under the reserved id; when one is in flight, return
the same pending promise and send nothing.  (The `notifications/initialized`
send happens only after the promise completes.) -/
def performHandshake (c : RpcClient) : RpcClient × List RpcEffect :=
  if c.handshakeInFlight then (c, [])
  else ({ c with handshakeInFlight := true },
    [RpcEffect.sent handshakeId "initialize"])

/-- The method `RpcClient.close` (lines 134-155): a no-op when already closed;
otherwise set the closed flag, close the transport, run every pending
callback with the synthetic response `{error: {code: -32000, message:
"Client connection closed"}}`, clear the pending map, and reject an
in-flight handshake. -/
def close (c : RpcClient) : RpcClient × List RpcEffect :=
  if c.closed then (c, [])
  else
    (⟨[], false, true⟩,
      RpcEffect.transportClosed ::
        (c.pending.map fun i => RpcEffect.callRejected i (-32000) "Client connection closed")
        ++ (if c.handshakeInFlight then
              [RpcEffect.handshakeRejected "Client connection closed during handshake"]
            else []))

/-- Recognizes the close-synthesized rejection of pending call `id`. -/
def isCloseReject (id : String) : RpcEffect → Bool
  | RpcEffect.callRejected j code msg =>
    j == id && code == (-32000 : Int) && msg == "Client connection closed"
  | _ => false

/-- Recognizes the close-time rejection of the in-flight handshake. -/
def isCloseHandshakeReject : RpcEffect → Bool
  | RpcEffect.handshakeRejected msg => msg == "Client connection closed during handshake"
  | _ => false

/-- Recognizes a resolution or rejection of the pending call `id`. -/
def effectForId (id : String) : RpcEffect → Bool
  | RpcEffect.callResolved j _ => j == id
  | RpcEffect.callRejected j _ _ => j == id
  | _ => false

/-! ### Claim C7 -/

/-- The close-synthesized rejection list hits an id once per pending
entry. -/
theorem countP_closeRejects (id : String) (pend : List String) :
    List.countP (isCloseReject id)
      (pend.map fun i => RpcEffect.callRejected i (-32000) "Client connection closed") =
      List.countP (fun j => j == id) pend := by
  induction pend with
  | nil => rfl
  | cons a t ihp => simp [List.countP_cons, ihp, isCloseReject]

/-- The close-synthesized call rejections are never mistaken for the
handshake rejection. -/
theorem countP_closeHandshake (pend : List String) :
    List.countP isCloseHandshakeReject
      (pend.map fun i => RpcEffect.callRejected i (-32000) "Client connection closed") = 0 := by
  induction pend with
  | nil => rfl
  | cons a t ihp => simp [List.countP_cons, ihp, isCloseHandshakeReject]

/-- Claim C7 (amended): `close()` on an open session sets the closed flag,
empties the pending map, rejects each still-pending call exactly once with
the synthetic `-32000 / "Client connection closed"` error response (as many
such rejections for an id as that id had pending entries), and rejects an
in-flight handshake exactly once — with a plain synthetic
`Error("Client connection closed during handshake")` carrying a message and
no numeric code; afterwards a second `close()` does nothing more and every
inbound message is ignored. -/
theorem C7_close (c : RpcClient) (id : String) (r : RpcResponse)
    (h : c.closed = false) :
    (close c).1.closed = true ∧
    (close c).1.pending = [] ∧
    (close c).1.handshakeInFlight = false ∧
    List.countP (isCloseReject id) (close c).2 =
      List.countP (fun j => j == id) c.pending ∧
    List.countP isCloseHandshakeReject (close c).2 =
      (if c.handshakeInFlight then 1 else 0) ∧
    close (close c).1 = ((close c).1, []) ∧
    handle (close c).1 r = ((close c).1, []) := by
  have hc : close c =
      (⟨[], false, true⟩,
        RpcEffect.transportClosed ::
          (c.pending.map fun i => RpcEffect.callRejected i (-32000) "Client connection closed")
          ++ (if c.handshakeInFlight then
                [RpcEffect.handshakeRejected "Client connection closed during handshake"]
              else [])) := by
    rw [close, if_neg (by simp [h])]
  have htail : List.countP (isCloseReject id)
      (if c.handshakeInFlight then
        [RpcEffect.handshakeRejected "Client connection closed during handshake"]
      else []) = 0 := by
    cases c.handshakeInFlight <;> simp [isCloseReject]
  refine ⟨by rw [hc], by rw [hc], by rw [hc], ?_, ?_, ?_, ?_⟩
  · rw [hc]
    simp only [List.countP_cons, List.countP_append, countP_closeRejects, htail]
    simp [isCloseReject]
  · rw [hc]
    simp only [List.countP_cons, List.countP_append, countP_closeHandshake]
    cases c.handshakeInFlight <;> simp [isCloseHandshakeReject]
  · rw [hc]
    rw [close, if_pos rfl]
  · rw [hc]
    rw [handle, if_pos rfl]

/-- Witness for C7: an open client with pending calls `a`, `b` and an
in-flight handshake; `close` rejects `a` once, rejects the handshake once,
and the closed client absorbs a further `close` and inbound responses. -/
theorem C7_witness :
    (close ⟨["a", "b"], true, false⟩).1.closed = true ∧
    (close ⟨["a", "b"], true, false⟩).1.pending = [] ∧
    (close ⟨["a", "b"], true, false⟩).1.handshakeInFlight = false ∧
    List.countP (isCloseReject "a") (close ⟨["a", "b"], true, false⟩).2 =
      List.countP (fun j => j == "a") ["a", "b"] ∧
    List.countP isCloseHandshakeReject (close ⟨["a", "b"], true, false⟩).2 =
      (if true then 1 else 0) ∧
    close (close ⟨["a", "b"], true, false⟩).1 = ((close ⟨["a", "b"], true, false⟩).1, []) ∧
    handle (close ⟨["a", "b"], true, false⟩).1 ⟨"a", none, none⟩ =
      ((close ⟨["a", "b"], true, false⟩).1, []) :=
  C7_close ⟨["a", "b"], true, false⟩ "a" ⟨"a", none, none⟩ rfl

/-- Recognizes a rejection carrying the numeric code `-32000`. -/
def isCode32000Reject : RpcEffect → Bool
  | RpcEffect.callRejected _ code _ => code == (-32000 : Int)
  | _ => false

/-- Counterexample for C7 as stated: closing a session whose only pending
work is the in-flight handshake produces exactly the transport close and the
handshake rejection `Error("Client connection closed during handshake")` —
a message-only error; no effect of the close carries the code `-32000`, so
the handshake is not resolved with a synthetic local error (code -32000) as
the claim asserts. -/
theorem C7_cex :
    (close ⟨[], true, false⟩).2 =
      [RpcEffect.transportClosed,
        RpcEffect.handshakeRejected "Client connection closed during handshake"] ∧
    List.countP isCode32000Reject (close ⟨[], true, false⟩).2 = 0 := by
  decide

/-! ### Claim C8 -/

/-- Claim C8 (amended): `call` under a fresh id sends exactly one request
and registers the id; a response with a different id never resolves or
rejects that call and leaves it registered; the matching response resolves
the call exactly once — rejecting with the remote error's code and message
when the response carries an error field, and otherwise resolving with the
entire Response object (`res(response)`), whose `result` field carries the
payload, not with the bare payload — and removes the pending entry. -/
theorem C8_call (c : RpcClient) (id method : String) (r : RpcResponse) (e : RpcError)
    (hclosed : c.closed = false) (hfresh : id ∉ c.pending) (hid : id ≠ handshakeId) :
    (call c id method).2 = [RpcEffect.sent id method] ∧
    id ∈ (call c id method).1.pending ∧
    (r.id ≠ id → List.countP (effectForId id) (handle (call c id method).1 r).2 = 0) ∧
    (r.id ≠ id → id ∈ (handle (call c id method).1 r).1.pending) ∧
    (r.id = id → r.error = none →
      (handle (call c id method).1 r).2 =
        [RpcEffect.callResolved id (ResolvedVal.response r)]) ∧
    (r.id = id → r.error = some e →
      (handle (call c id method).1 r).2 = [RpcEffect.callRejected id e.code e.message]) ∧
    (r.id = id → id ∉ (handle (call c id method).1 r).1.pending) := by
  have hcall : call c id method =
      ({ c with pending := c.pending ++ [id] }, [RpcEffect.sent id method]) := by
    rw [call, if_neg hfresh]
  have hmem : id ∈ c.pending ++ [id] := List.mem_append_right _ (by simp)
  have hmain : ∀ r2 : RpcResponse, r2.id ≠ handshakeId → r2.id ∈ c.pending ++ [id] →
      handle { c with pending := c.pending ++ [id] } r2 =
        ({ c with pending := (c.pending ++ [id]).erase r2.id },
          match r2.error with
          | some e2 => [RpcEffect.callRejected r2.id e2.code e2.message]
          | none => [RpcEffect.callResolved r2.id (ResolvedVal.response r2)]) := by
    intro r2 hh hp
    rw [handle, if_neg (by simp [hclosed]), if_neg hh, if_pos hp]
  refine ⟨by rw [hcall], by rw [hcall]; exact hmem, ?_, ?_, ?_, ?_, ?_⟩
  · intro hne
    rw [hcall]
    by_cases hh : r.id = handshakeId
    · rcases hres : r.result with _ | v <;> rcases herr : r.error with _ | e2 <;>
        cases hif : c.handshakeInFlight <;>
        simp [handle, hclosed, hh, hres, herr, hif, effectForId]
    · by_cases hp : r.id ∈ c.pending ++ [id]
      · rw [hmain r hh hp]
        rcases herr : r.error with _ | e2 <;> simp [herr, effectForId, hne]
      · rw [handle, if_neg (by simp [hclosed]), if_neg hh, if_neg hp]
        simp
  · intro hne
    rw [hcall]
    by_cases hh : r.id = handshakeId
    · rw [handle, if_neg (by simp [hclosed]), if_pos hh]
      exact hmem
    · by_cases hp : r.id ∈ c.pending ++ [id]
      · have hpc : r.id ∈ c.pending := by
          rcases List.mem_append.1 hp with h1 | h1
          · exact h1
          · exact absurd (List.mem_singleton.1 h1) hne
        rw [hmain r hh hp]
        show id ∈ (c.pending ++ [id]).erase r.id
        rw [List.erase_append_left _ hpc]
        exact List.mem_append_right _ (by simp)
      · rw [handle, if_neg (by simp [hclosed]), if_neg hh, if_neg hp]
        exact hmem
  · intro hrid herr
    rw [hcall, hmain r (by rw [hrid]; exact hid) (by rw [hrid]; exact hmem)]
    simp [herr, hrid]
  · intro hrid herr
    rw [hcall, hmain r (by rw [hrid]; exact hid) (by rw [hrid]; exact hmem)]
    simp [herr, hrid]
  · intro hrid
    rw [hcall, hmain r (by rw [hrid]; exact hid) (by rw [hrid]; exact hmem)]
    show id ∉ (c.pending ++ [id]).erase r.id
    rw [hrid, List.erase_append_right _ hfresh]
    simp [hfresh]

/-- Witness for C8 at concrete inputs: a fresh call `abc`, a success
response, an error response, and an unrelated response, each applied through
the theorem. -/
theorem C8_witness :
    (call ⟨[], false, false⟩ "abc" "tools/call").2 = [RpcEffect.sent "abc" "tools/call"] ∧
    (handle (call ⟨[], false, false⟩ "abc" "tools/call").1
        ⟨"abc", some (JsVal.str "ok"), none⟩).2 =
      [RpcEffect.callResolved "abc"
        (ResolvedVal.response ⟨"abc", some (JsVal.str "ok"), none⟩)] ∧
    (handle (call ⟨[], false, false⟩ "abc" "tools/call").1
        ⟨"abc", none, some ⟨-32001, "boom"⟩⟩).2 =
      [RpcEffect.callRejected "abc" (-32001) "boom"] ∧
    List.countP (effectForId "abc")
      (handle (call ⟨[], false, false⟩ "abc" "tools/call").1 ⟨"other", none, none⟩).2 = 0 := by
  refine ⟨?_, ?_, ?_, ?_⟩
  · exact (C8_call ⟨[], false, false⟩ "abc" "tools/call" ⟨"abc", none, none⟩
      ⟨0, ""⟩ rfl (by simp) (by decide)).1
  · exact (C8_call ⟨[], false, false⟩ "abc" "tools/call"
      ⟨"abc", some (JsVal.str "ok"), none⟩ ⟨0, ""⟩ rfl (by simp)
      (by decide)).2.2.2.2.1 rfl rfl
  · exact (C8_call ⟨[], false, false⟩ "abc" "tools/call"
      ⟨"abc", none, some ⟨-32001, "boom"⟩⟩ ⟨-32001, "boom"⟩ rfl (by simp)
      (by decide)).2.2.2.2.2.1 rfl rfl
  · exact (C8_call ⟨[], false, false⟩ "abc" "tools/call" ⟨"other", none, none⟩
      ⟨0, ""⟩ rfl (by simp) (by decide)).2.2.1 (by decide)

/-- Counterexample for C8 as stated: a matching error-free response makes
the callback run `res(response)` — the promise resolves with the whole
Response object, which is not the bare `result` payload the claim names
(the two are distinct resolved values). -/
theorem C8_cex :
    (handle (call ⟨[], false, false⟩ "abc" "tools/call").1
        ⟨"abc", some (JsVal.str "ok"), none⟩).2 =
      [RpcEffect.callResolved "abc"
        (ResolvedVal.response ⟨"abc", some (JsVal.str "ok"), none⟩)] ∧
    ResolvedVal.response ⟨"abc", some (JsVal.str "ok"), none⟩ ≠
      ResolvedVal.payload (some (JsVal.str "ok")) := by
  decide

/-! ### Claim C9 -/

/-- Claim C9: `performHandshake` is idempotent while a handshake is in
flight — a call on an in-flight session changes nothing and sends nothing
(the callers share the one pending promise), a first call on an idle session
sends exactly one `initialize` request under the reserved id, and an
immediately repeated call sends nothing further. -/
theorem C9_handshake (c : RpcClient) :
    (c.handshakeInFlight = true → performHandshake c = (c, [])) ∧
    (performHandshake c).1.handshakeInFlight = true ∧
    performHandshake (performHandshake c).1 = ((performHandshake c).1, []) ∧
    (c.handshakeInFlight = false →
      (performHandshake c).2 = [RpcEffect.sent handshakeId "initialize"]) := by
  cases hif : c.handshakeInFlight <;>
    simp [performHandshake, hif]

/-- Witness for C9: an in-flight client is left untouched with no request
sent, and an idle client sends the one `initialize` request. -/
theorem C9_witness :
    performHandshake (⟨[], true, false⟩ : RpcClient) = (⟨[], true, false⟩, []) ∧
    (performHandshake (⟨[], false, false⟩ : RpcClient)).2 =
      [RpcEffect.sent handshakeId "initialize"] :=
  ⟨(C9_handshake ⟨[], true, false⟩).1 rfl,
    (C9_handshake ⟨[], false, false⟩).2.2.2 rfl⟩

/-! ### Claim C10: configuration reload (`setConfigFromJson`) -/

/-- A JSON value, the result of `JSON.parse`. -/
inductive Json where
  | null
  | bool (b : Bool)
  | num (n : Int)
  | str (s : String)
  | arr (items : List Json)
  | obj (fields : List (String × Json))

/-- Field lookup in a parsed JSON object. -/
def lookupField (fields : List (String × Json)) (k : String) : Option Json :=
  match fields.find? fun f => f.1 == k with
  | some f => some f.2
  | none => none

/-- Zod `z.boolean().default(d)`: a missing key takes the default, a boolean
parses, anything else fails. -/
def parseBoolField (fields : List (String × Json)) (k : String) (d : Bool) : Option Bool :=
  match lookupField fields k with
  | none => some d
  | some (Json.bool b) => some b
  | some _ => none

/-- Zod `z.array(z.string())` on an item list. -/
def parseStringList : List Json → Option (List String)
  | [] => some []
  | Json.str s :: rest => (parseStringList rest).map fun l => s :: l
  | _ => none

/-- Zod `z.array(z.string()).default([])`: missing key defaults to the empty
list, an array of strings parses, anything else fails. -/
def parseStringArrayField (fields : List (String × Json)) (k : String) :
    Option (List String) :=
  match lookupField fields k with
  | none => some []
  | some (Json.arr items) => parseStringList items
  | some _ => none

/-- The inner `autorun_mode` object schema of `ApprovalConfigSchema`. -/
def parseAutorunMode (j : Json) : Option AutorunMode :=
  match j with
  | Json.obj fields =>
    match parseBoolField fields "enabled" false,
        parseStringArrayField fields "allowlist",
        parseStringArrayField fields "denylist",
        parseBoolField fields "allow_all_other_commands" false with
    | some e, some al, some dl, some ao => some ⟨e, al, dl, ao⟩
    | _, _, _, _ => none
  | _ => none

/-- The validation `ApprovalConfigSchema.safeParse`: the root must be an object with an
`autorun_mode` object satisfying the inner schema; there is no default for
`autorun_mode` itself. -/
def approvalConfigSafeParse (j : Json) : Option ApprovalConfig :=
  match j with
  | Json.obj fields =>
    match lookupField fields "autorun_mode" with
    | some inner => (parseAutorunMode inner).map ApprovalConfig.mk
    | none => none
  | _ => none

/-- The function `setConfigFromJson` (`types.ts` lines 178-193): `JSON.parse` runs inside
`try` — a parse exception (modelled as `none`) is caught and leaves the
active config untouched; a parsed value that fails `safeParse` also leaves
it untouched; only a fully validated value replaces it, wholesale. -/
def setConfigFromJson (parsed : Option Json) (active : ApprovalConfig) : ApprovalConfig :=
  match parsed with
  | none => active
  | some j =>
    match approvalConfigSafeParse j with
    | some cfg => cfg
    | none => active

/-- Claim C10: an unparsable input leaves the active configuration
unchanged, a parsed input yields either the schema-validated value or the
unchanged previous snapshot, and whenever the active config changes, the
new value is exactly a schema-validated parse result (wholesale
replacement). -/
theorem C10_reload (j : Json) (active : ApprovalConfig) :
    setConfigFromJson none active = active ∧
    setConfigFromJson (some j) active = (approvalConfigSafeParse j).getD active ∧
    (setConfigFromJson (some j) active = active ∨
      approvalConfigSafeParse j = some (setConfigFromJson (some j) active)) := by
  refine ⟨rfl, ?_, ?_⟩
  · cases hp : approvalConfigSafeParse j <;> simp [setConfigFromJson, hp]
  · cases hp : approvalConfigSafeParse j
    · exact Or.inl (by simp [setConfigFromJson, hp])
    · exact Or.inr (by simp [setConfigFromJson, hp])

end Mcp
